import Mathlib

/-!
Verification development for the UNet2DConditionModel of
`tensorrt_llm/models/unet/unet_2d_condition.py` (TensorRT-LLM stable-diffusion
example).  The constructor (`__init__`) is embedded as `initModel` and the
`forward` method as `forward`.  Tensor mathematics is delegated to an external
library in the source, so tensors are embedded as an opaque expression tree
(`Tensor`): each primitive operation of the source becomes a constructor, which
keeps the data flow (in particular the skip-connection stack discipline) fully
explicit while treating the numerics as a black box.

The block implementations (`get_down_block`, `get_up_block`,
`unet_2d_blocks.py`) are not part of this repository fragment; where their
behaviour matters (which block types carry attention, how many residual
tensors a down block returns, how many tensors an up block pops) they are
modelled from the specification, and each such definition is marked
`Modelled from the spec:` in its doc comment.
-/

/-- Errors arising while constructing the model.  `indexError` embeds a Python
`IndexError` from an out-of-range list subscript; `unsupportedBlockType` is
the block factory's failure on an unknown block-type tag. -/
inductive UnetError where
  | indexError
  | unsupportedBlockType
deriving DecidableEq

/-- Errors arising during `forward`.  `missingAux` embeds the failed
`assert text_embeds is not None and time_ids is not None` (the
PreconditionError of the specification); `skipStackUnderflow` is the failure
of an up block popping more skip tensors than it received. -/
inductive FwdError where
  | missingAux
  | skipStackUnderflow
deriving DecidableEq

/-- Python list subscript `xs[i]` with support for negative indices:
out-of-range access is an `IndexError`. -/
def pyIdx {α : Type} (xs : List α) (i : Int) : Except UnetError α :=
  let j : Int := if i < 0 then (xs.length : Int) + i else i
  if j < 0 then .error .indexError
  else
    match xs.get? j.toNat with
    | some v => .ok v
    | none => .error .indexError

/-- Python tail slice `xs[-n:]` (for a nonnegative `n`; `xs[-0:]` is all of
`xs`). -/
def pyTakeLast {α : Type} (xs : List α) (n : Nat) : List α :=
  if n = 0 then xs else xs.drop (xs.length - n)

/-- Python slice `xs[:-n]` (for a nonnegative `n`; `xs[:-0]` is `xs[:0] = []`). -/
def pyDropLast {α : Type} (xs : List α) (n : Nat) : List α :=
  if n = 0 then [] else xs.take (xs.length - n)

/-- A hyperparameter that is either a Python `int` (scalar) or a
sequence, as accepted for `attention_head_dim` and
`transformer_layers_per_block`. -/
inductive IntOrList where
  | scalar : Nat → IntOrList
  | seq : List Nat → IntOrList
deriving DecidableEq

/-- The source's scalar broadcast:
`if isinstance(x, int): x = (x,) * len(down_block_types)`; a supplied
sequence is left unchanged. -/
def broadcastAttr (a : IntOrList) (n : Nat) : List Nat :=
  match a with
  | .scalar k => List.replicate n k
  | .seq l => l

/-- The constructor arguments of `UNet2DConditionModel.__init__` that affect
the assembled topology.  Purely numeric or opaque hyperparameters that are
merely forwarded to the external tensor library (`sample_size`,
`flip_sin_to_cos`, `freq_shift`, `downsample_padding`,
`mid_block_scale_factor`, `act_fn`, `norm_num_groups`, `norm_eps`,
`cross_attention_dim`, `use_linear_projection`, `addition_time_embed_dim`,
`projection_class_embeddings_input_dim`, `dtype`) are omitted: they are never
read back by the topology-assembly or forward logic embedded here. -/
structure HParams where
  in_channels : Nat := 4
  out_channels : Nat := 4
  down_block_types : List String :=
    ["CrossAttnDownBlock2D", "CrossAttnDownBlock2D", "CrossAttnDownBlock2D",
     "DownBlock2D"]
  up_block_types : List String :=
    ["UpBlock2D", "CrossAttnUpBlock2D", "CrossAttnUpBlock2D",
     "CrossAttnUpBlock2D"]
  block_out_channels : List Nat := [320, 640, 1280, 1280]
  layers_per_block : Nat := 2
  transformer_layers_per_block : IntOrList := .scalar 1
  attention_head_dim : IntOrList := .scalar 8
  addition_embed_type : Option String := none


/-- A constructed down block, as produced by `get_down_block`.  `numLayers`
is the `num_layers` argument (`layers_per_block`), which — modelled from the
spec, since `unet_2d_blocks.py` is not part of this fragment — is also the
number of resnet sub-blocks.  `hasAttentions` records whether the block
carries a non-`None` `attentions` attribute (true exactly for the
cross-attention variant). -/
structure DownBlockDesc where
  numLayers : Nat
  transformerLayers : Nat
  inChannels : Nat
  outChannels : Nat
  addDownsample : Bool
  attnHeads : Nat
  hasAttentions : Bool
deriving DecidableEq

/-- A constructed up block, as produced by `get_up_block`.  `numLayers` is
the `num_layers` argument (`layers_per_block + 1`); modelled from the spec,
its `resnets` list has exactly `numLayers` entries, which is the count the
forward up loop pops from the skip stack. -/
structure UpBlockDesc where
  numLayers : Nat
  transformerLayers : Nat
  inChannels : Nat
  outChannels : Nat
  prevOutputChannel : Nat
  addUpsample : Bool
  attnHeads : Nat
  hasAttentions : Bool
deriving DecidableEq

/-- The single `UNetMidBlock2DCrossAttn` bottleneck block. -/
structure MidBlockDesc where
  inChannels : Nat
  transformerLayers : Nat
  attnHeads : Nat
deriving DecidableEq

/-- The constructed model: everything `__init__` stores on `self` that the
embedded `forward` reads, plus the channel bookkeeping of the input/output
convolutions. -/
structure Model where
  additionEmbedType : Option String
  timeEmbedDim : Nat
  downBlocks : List DownBlockDesc
  midBlock : MidBlockDesc
  upBlocks : List UpBlockDesc
  convInOut : Nat
  convOutChannels : Nat
deriving DecidableEq

/-- Modelled from the spec: the factory `get_down_block`
(`unet_2d_blocks.py`, not in this fragment) accepts a closed vocabulary of
down-block tags and fails on anything else; the `CrossAttnDownBlock2D`
variant carries cross-attention (`attentions` is not `None`), the plain
`DownBlock2D` does not. -/
def downTypeHasAttn (ty : String) : Except UnetError Bool :=
  if ty = "CrossAttnDownBlock2D" then .ok true
  else if ty = "DownBlock2D" then .ok false
  else .error .unsupportedBlockType

/-- Modelled from the spec: the factory `get_up_block` with the up-block tag
vocabulary; `CrossAttnUpBlock2D` carries cross-attention, `UpBlock2D` does
not. -/
def upTypeHasAttn (ty : String) : Except UnetError Bool :=
  if ty = "CrossAttnUpBlock2D" then .ok true
  else if ty = "UpBlock2D" then .ok false
  else .error .unsupportedBlockType

/-- The down-path construction loop (`__init__` lines 99–121).  `i` is the
loop index, `outCh` the threaded `output_channel` variable (the previous
stage's output channel, initially `block_out_channels[0]`).  List reads use
`pyIdx` so that, as in Python, an out-of-range subscript aborts construction
at that point. -/
def buildDownBlocks (hp : HParams) (attn tpb : List Nat) :
    Nat → Nat → List String → Except UnetError (List DownBlockDesc)
  | _, _, [] => .ok []
  | i, outCh, ty :: rest => do
    let o ← pyIdx hp.block_out_channels (Int.ofNat i)
    let tl ← pyIdx tpb (Int.ofNat i)
    let ah ← pyIdx attn (Int.ofNat i)
    let hasAttn ← downTypeHasAttn ty
    let tail ← buildDownBlocks hp attn tpb (i + 1) o rest
    .ok ({ numLayers := hp.layers_per_block
           transformerLayers := tl
           inChannels := outCh
           outChannels := o
           addDownsample := !(i == hp.block_out_channels.length - 1)
           attnHeads := ah
           hasAttentions := hasAttn } :: tail)

/-- The up-path construction loop (`__init__` lines 143–171).  `outCh`
threads the `output_channel` variable (initially
`reversed_block_out_channels[0]`); `prev_output_channel` is its value from
the previous iteration, `input_channel` is
`reversed_block_out_channels[min(i + 1, len(block_out_channels) - 1)]`. -/
def buildUpBlocks (hp : HParams) (rboc rattn rtpb : List Nat) :
    Nat → Nat → List String → Except UnetError (List UpBlockDesc)
  | _, _, [] => .ok []
  | i, outCh, ty :: rest => do
    let o ← pyIdx rboc (Int.ofNat i)
    let inCh ← pyIdx rboc
      (Int.ofNat (min (i + 1) (hp.block_out_channels.length - 1)))
    let tl ← pyIdx rtpb (Int.ofNat i)
    let ah ← pyIdx rattn (Int.ofNat i)
    let hasAttn ← upTypeHasAttn ty
    let tail ← buildUpBlocks hp rboc rattn rtpb (i + 1) o rest
    .ok ({ numLayers := hp.layers_per_block + 1
           transformerLayers := tl
           inChannels := inCh
           outChannels := o
           prevOutputChannel := outCh
           addUpsample := !(i == hp.block_out_channels.length - 1)
           attnHeads := ah
           hasAttentions := hasAttn } :: tail)

/-- `UNet2DConditionModel.__init__`: scalar hyperparameters are broadcast to
per-stage sequences, then the down blocks, the mid block and the up blocks
are assembled in source order.  Any out-of-range list subscript or unknown
block-type tag aborts construction with the corresponding error, exactly at
the first faulty read. -/
def initModel (hp : HParams) : Except UnetError Model := do
  let c0 ← pyIdx hp.block_out_channels 0
  let timeEmbedDim := c0 * 4
  let attn := broadcastAttr hp.attention_head_dim hp.down_block_types.length
  let tpb := broadcastAttr hp.transformer_layers_per_block
    hp.down_block_types.length
  let downBlocks ← buildDownBlocks hp attn tpb 0 c0 hp.down_block_types
  let midIn ← pyIdx hp.block_out_channels (-1)
  let midT ← pyIdx tpb (-1)
  let midA ← pyIdx attn (-1)
  let rboc := hp.block_out_channels.reverse
  let rattn := attn.reverse
  let rtpb := tpb.reverse
  let out0 ← pyIdx rboc 0
  let upBlocks ← buildUpBlocks hp rboc rattn rtpb 0 out0 hp.up_block_types
  .ok { additionEmbedType := hp.addition_embed_type
        timeEmbedDim := timeEmbedDim
        downBlocks := downBlocks
        midBlock := { inChannels := midIn, transformerLayers := midT,
                      attnHeads := midA }
        upBlocks := upBlocks
        convInOut := c0
        convOutChannels := hp.out_channels }

/-- Opaque tensor expressions: one constructor per primitive operation the
source applies.  The numeric semantics live in the external tensor library;
here a tensor is identified with the expression that produced it, which is
exactly what the graph-assembly code manipulates. -/
inductive Tensor where
  | free : String → Tensor
  | timeProj : Tensor → Tensor
  | timeEmbedding : Tensor → Tensor
  | viewFlat : Tensor → Tensor
  | viewBatch : Tensor → Tensor → Tensor
  | addTimeProj : Tensor → Tensor
  | concatT : Tensor → Tensor → Tensor
  | castLike : Tensor → Tensor → Tensor
  | addEmbedding : Tensor → Tensor
  | addT : Tensor → Tensor → Tensor
  | convIn : Tensor → Tensor
  | downRes : Nat → Nat → Tensor → Tensor → Option Tensor → Tensor
  | downOut : Nat → Tensor → Tensor → Option Tensor → Tensor
  | midOut : Tensor → Tensor → Tensor → Tensor
  | upOut : Nat → Tensor → Tensor → List Tensor → Option Tensor → Tensor
  | convNormOut : Tensor → Tensor
  | siluT : Tensor → Tensor
  | convOut : Tensor → Tensor

/-- Arguments of `forward`; `textEmbeds` and `timeIds` default to `None`. -/
structure FwdArgs where
  sample : Tensor
  timesteps : Tensor
  encoderHiddenStates : Tensor
  textEmbeds : Option Tensor := none
  timeIds : Option Tensor := none

/-- Modelled from the spec: a down block (its implementation lives in
`unet_2d_blocks.py`, outside this fragment) returns one residual output per
resnet sub-block, plus the downsampled output when `add_downsample` is set —
these are the tensors the forward down loop appends to the skip stack, in
production order. -/
def downBlockResSamples (i : Nat) (b : DownBlockDesc)
    (hidden emb : Tensor) (enc : Option Tensor) : List Tensor :=
  (List.range b.numLayers).map (fun j => Tensor.downRes i j hidden emb enc)
    ++ (if b.addDownsample then [Tensor.downOut i hidden emb enc] else [])

/-- The forward down loop (`forward` lines 206–220): each block is invoked
with the encoder hidden states exactly when it has attention, its returned
residual tensors are appended to the skip stack, and its output becomes the
next hidden state.  `i` is the block index. -/
def downPathAux (emb enc : Tensor) :
    Nat → Tensor → List Tensor → List DownBlockDesc → Tensor × List Tensor
  | _, sample, stack, [] => (sample, stack)
  | i, sample, stack, b :: rest =>
    let encOpt := if b.hasAttentions then some enc else none
    downPathAux emb enc (i + 1) (Tensor.downOut i sample emb encOpt)
      (stack ++ downBlockResSamples i b sample emb encOpt) rest

/-- The forward up loop (`forward` lines 226–243):
`res_samples = down_block_res_samples[-len(resnets):]` and
`down_block_res_samples = down_block_res_samples[:-len(resnets)]` are the
two Python slices (both total, embedded by `pyTakeLast`/`pyDropLast`).
Modelled from the spec: the invoked up block then pops one skip tensor per
resnet from the tail of what it received, so when the slice under-delivers
(`res.length < b.numLayers`) the call fails at the first unsatisfiable pop;
this is the `skipStackUnderflow` outcome. -/
def upPathAux (emb enc : Tensor) :
    Nat → Tensor → List Tensor → List UpBlockDesc →
    Except FwdError (Tensor × List Tensor)
  | _, sample, stack, [] => .ok (sample, stack)
  | i, sample, stack, b :: rest =>
    let res := pyTakeLast stack b.numLayers
    let stack' := pyDropLast stack b.numLayers
    if res.length < b.numLayers then .error .skipStackUnderflow
    else
      let encOpt := if b.hasAttentions then some enc else none
      upPathAux emb enc (i + 1) (Tensor.upOut i sample emb res encOpt)
        stack' rest

/-- Steps (3)–(7) of `forward` once the conditioning embedding `emb` is
fixed: input convolution, down path (seeding the skip stack with the input
convolution's output), mid block, up path, and the output normalisation /
activation / convolution (`forward` lines 204–249). -/
def forwardCore (m : Model) (emb enc smp : Tensor) : Except FwdError Tensor :=
  let s0 := Tensor.convIn smp
  let dres := downPathAux emb enc 0 s0 [s0] m.downBlocks
  let smid := Tensor.midOut dres.1 emb enc
  match upPathAux emb enc 0 smid dres.2 m.upBlocks with
  | .error e => .error e
  | .ok (sout, _) =>
    .ok (Tensor.convOut (Tensor.siluT (Tensor.convNormOut sout)))

/-- `UNet2DConditionModel.forward`: timestep embedding, optional auxiliary
("text_time") embedding — whose absent inputs fail the assertion —, then the
convolution/down/mid/up pipeline of `forwardCore`. -/
def forward (m : Model) (a : FwdArgs) : Except FwdError Tensor :=
  let t_emb := Tensor.timeProj a.timesteps
  let emb0 := Tensor.timeEmbedding t_emb
  let augRes : Except FwdError (Option Tensor) :=
    if m.additionEmbedType = some "text_time" then
      match a.textEmbeds, a.timeIds with
      | some te, some ti =>
        let time_embeds := Tensor.addTimeProj (Tensor.viewFlat ti)
        let time_embeds := Tensor.viewBatch time_embeds te
        let add_embeds := Tensor.concatT te time_embeds
        let add_embeds := Tensor.castLike add_embeds emb0
        .ok (some (Tensor.addEmbedding add_embeds))
      | _, _ => .error .missingAux
    else .ok none
  match augRes with
  | .error e => .error e
  | .ok aug =>
    let emb := match aug with
      | some g => Tensor.addT emb0 g
      | none => emb0
    forwardCore m emb a.encoderHiddenStates a.sample

/-- The skip stack a `forward` call has accumulated when the down path is
done: the output of the input convolution is pushed first (the initial
`down_block_res_samples = (sample, )` with `sample = self.conv_in(sample)`),
then every down block's residual outputs in production order. -/
def downStack (m : Model) (emb enc s0 : Tensor) : List Tensor :=
  (downPathAux emb enc 0 s0 [s0] m.downBlocks).2

/-- Closed form for the down block built at loop index `i`: the threaded
`input_channel` equals `block_out_channels[i - 1]` (and `block_out_channels[0]`
for the first stage, which `i - 1 = 0` also yields). -/
def downDesc (hp : HParams) (attn tpb : List Nat) (i : Nat) (ty : String) :
    DownBlockDesc :=
  { numLayers := hp.layers_per_block
    transformerLayers := tpb.getD i 0
    inChannels := hp.block_out_channels.getD (i - 1) 0
    outChannels := hp.block_out_channels.getD i 0
    addDownsample := !(i == hp.block_out_channels.length - 1)
    attnHeads := attn.getD i 0
    hasAttentions := ty == "CrossAttnDownBlock2D" }

/-- Closed form of the list of down blocks built from loop index `i` on. -/
def downListFrom (hp : HParams) (attn tpb : List Nat) :
    Nat → List String → List DownBlockDesc
  | _, [] => []
  | i, ty :: rest => downDesc hp attn tpb i ty :: downListFrom hp attn tpb (i + 1) rest

/-- Closed form for the up block built at loop index `i`, over the reversed
per-stage lists: `prev_output_channel` is the previous iteration's
`output_channel`, i.e. `reversed_block_out_channels[i - 1]` (index `0` for the
first stage). -/
def upDesc (hp : HParams) (rboc rattn rtpb : List Nat) (i : Nat) (ty : String) :
    UpBlockDesc :=
  { numLayers := hp.layers_per_block + 1
    transformerLayers := rtpb.getD i 0
    inChannels := rboc.getD (min (i + 1) (hp.block_out_channels.length - 1)) 0
    outChannels := rboc.getD i 0
    prevOutputChannel := rboc.getD (i - 1) 0
    addUpsample := !(i == hp.block_out_channels.length - 1)
    attnHeads := rattn.getD i 0
    hasAttentions := ty == "CrossAttnUpBlock2D" }

/-- Closed form of the list of up blocks built from loop index `i` on. -/
def upListFrom (hp : HParams) (rboc rattn rtpb : List Nat) :
    Nat → List String → List UpBlockDesc
  | _, [] => []
  | i, ty :: rest => upDesc hp rboc rattn rtpb i ty :: upListFrom hp rboc rattn rtpb (i + 1) rest

/-- Closed form of the whole constructed model for a config on which
construction succeeds without any out-of-range subscript. -/
def modelSpec (hp : HParams) : Model :=
  let attn := broadcastAttr hp.attention_head_dim hp.down_block_types.length
  let tpb := broadcastAttr hp.transformer_layers_per_block
    hp.down_block_types.length
  { additionEmbedType := hp.addition_embed_type
    timeEmbedDim := hp.block_out_channels.getD 0 0 * 4
    downBlocks := downListFrom hp attn tpb 0 hp.down_block_types
    midBlock := { inChannels :=
                    hp.block_out_channels.getD (hp.block_out_channels.length - 1) 0
                  transformerLayers := tpb.getD (tpb.length - 1) 0
                  attnHeads := attn.getD (attn.length - 1) 0 }
    upBlocks := upListFrom hp hp.block_out_channels.reverse attn.reverse
      tpb.reverse 0 hp.up_block_types
    convInOut := hp.block_out_channels.getD 0 0
    convOutChannels := hp.out_channels }

/-- The down-block tags the factory accepts. -/
abbrev knownDownType (s : String) : Prop :=
  s = "CrossAttnDownBlock2D" ∨ s = "DownBlock2D"

/-- The up-block tags the factory accepts. -/
abbrev knownUpType (s : String) : Prop :=
  s = "CrossAttnUpBlock2D" ∨ s = "UpBlock2D"

/-- A valid architecture config in the sense of the specification: at least
one stage, one channel entry per stage, as many up-stages as down-stages,
per-stage sequences (after scalar broadcast) of length equal to the stage
count, and block-type tags from the factory's vocabulary. -/
abbrev wellFormed (hp : HParams) : Prop :=
  1 ≤ hp.block_out_channels.length
  ∧ hp.down_block_types.length = hp.block_out_channels.length
  ∧ hp.up_block_types.length = hp.down_block_types.length
  ∧ (broadcastAttr hp.attention_head_dim hp.down_block_types.length).length
      = hp.down_block_types.length
  ∧ (broadcastAttr hp.transformer_layers_per_block
      hp.down_block_types.length).length = hp.down_block_types.length
  ∧ (∀ s ∈ hp.down_block_types, knownDownType s)
  ∧ (∀ s ∈ hp.up_block_types, knownUpType s)

/-- Total number of skip tensors the down blocks push onto the stack (one per
resnet, plus one per downsampler); the input convolution's entry is counted
separately. -/
def downSkipCount : List DownBlockDesc → Nat
  | [] => 0
  | b :: rest => b.numLayers + cond b.addDownsample 1 0 + downSkipCount rest

/-- Total number of skip tensors the up blocks pop from the stack (one per
resnet). -/
def upNeedCount : List UpBlockDesc → Nat
  | [] => 0
  | b :: rest => b.numLayers + upNeedCount rest

/-- Default down-block value used with `List.getD`. -/
def dfltDown : DownBlockDesc :=
  { numLayers := 0, transformerLayers := 0, inChannels := 0, outChannels := 0,
    addDownsample := false, attnHeads := 0, hasAttentions := false }

/-- Default up-block value used with `List.getD`. -/
def dfltUp : UpBlockDesc :=
  { numLayers := 0, transformerLayers := 0, inChannels := 0, outChannels := 0,
    prevOutputChannel := 0, addUpsample := false, attnHeads := 0,
    hasAttentions := false }

/-- A small well-formed config: two stages, one cross-attention and one plain
block on each path. -/
def cfgValid : HParams :=
  { down_block_types := ["CrossAttnDownBlock2D", "DownBlock2D"]
    up_block_types := ["UpBlock2D", "CrossAttnUpBlock2D"]
    block_out_channels := [4, 8]
    layers_per_block := 1
    attention_head_dim := .scalar 2
    transformer_layers_per_block := .scalar 1 }

/-- A constructible config whose up path demands more skip tensors than the
down path produces: one down-stage over a two-entry channel list (so the sole
down block keeps its downsampler) but two up-stages. -/
def cfgUnder : HParams :=
  { down_block_types := ["DownBlock2D"]
    up_block_types := ["UpBlock2D", "UpBlock2D"]
    block_out_channels := [8, 16]
    layers_per_block := 1
    attention_head_dim := .seq [1, 1]
    transformer_layers_per_block := .seq [1, 1] }

/-- `cfgValid` with fewer up-stages than down-stages. -/
def cfgShortUp : HParams := { cfgValid with up_block_types := ["UpBlock2D"] }

/-- `cfgValid` with a three-entry attention-head sequence over two stages. -/
def cfgLongAttn : HParams :=
  { cfgValid with attention_head_dim := .seq [2, 2, 2] }

/-- `cfgValid` with a one-entry attention-head sequence over two stages. -/
def cfgShortAttn : HParams := { cfgValid with attention_head_dim := .seq [2] }

/-- `cfgValid` with a one-entry transformer-layer-depth sequence over two
stages. -/
def cfgShortTpb : HParams :=
  { cfgValid with transformer_layers_per_block := .seq [1] }

/-- `cfgValid` with more up-stages than channel entries. -/
def cfgLongUp : HParams :=
  { cfgValid with up_block_types := ["UpBlock2D", "UpBlock2D", "UpBlock2D"] }

/-- `cfgValid` with the auxiliary ("text_time") conditioning mode. -/
def cfgAux : HParams := { cfgValid with addition_embed_type := some "text_time" }

/-! ### Basic lemmas about the Python-subscript and slice embeddings -/

theorem pyIdx_ofNat_ok {α : Type} (xs : List α) (j : Nat) (d : α)
    (h : j < xs.length) : pyIdx xs (Int.ofNat j) = .ok (xs.getD j d) := by
  have h1 : ¬ ((Int.ofNat j) < 0) := by simp only [Int.ofNat_eq_coe]; omega
  have h3 : xs.get? j = some (xs.get ⟨j, h⟩) := List.get?_eq_get h
  simp only [pyIdx, h1, if_false]
  have h2 : (Int.ofNat j).toNat = j := rfl
  rw [h2, h3, List.getD_eq_get xs d h]

theorem pyIdx_ofNat_err {α : Type} (xs : List α) (j : Nat)
    (h : xs.length ≤ j) : pyIdx xs (Int.ofNat j) = .error .indexError := by
  have h1 : ¬ ((Int.ofNat j) < 0) := by simp only [Int.ofNat_eq_coe]; omega
  have h3 : xs.get? j = none := List.get?_eq_none.mpr h
  simp only [pyIdx, h1, if_false]
  have h2 : (Int.ofNat j).toNat = j := rfl
  rw [h2, h3]

theorem pyIdx_neg_one_ok {α : Type} (xs : List α) (d : α)
    (h : 1 ≤ xs.length) :
    pyIdx xs (-1) = .ok (xs.getD (xs.length - 1) d) := by
  have h1 : ((-1 : Int) < 0) := by omega
  have h0 : ¬ ((xs.length : Int) + (-1) < 0) := by omega
  have h2 : ((xs.length : Int) + (-1)).toNat = xs.length - 1 := by omega
  have hlt : xs.length - 1 < xs.length := by omega
  have h3 : xs.get? (xs.length - 1) = some (xs.get ⟨xs.length - 1, hlt⟩) :=
    List.get?_eq_get hlt
  simp only [pyIdx, h1, if_true, h0, if_false]
  rw [h2, h3, List.getD_eq_get xs d hlt]

theorem pyTakeLast_len {α : Type} {xs : List α} {n : Nat} (h0 : 1 ≤ n)
    (h : n ≤ xs.length) : (pyTakeLast xs n).length = n := by
  unfold pyTakeLast
  rw [if_neg (by omega)]
  rw [List.length_drop]
  omega

theorem pyDropLast_len {α : Type} {xs : List α} {n : Nat} (h0 : 1 ≤ n) :
    (pyDropLast xs n).length = xs.length - n := by
  unfold pyDropLast
  rw [if_neg (by omega)]
  rw [List.length_take]
  omega

theorem pyDropLast_append_pyTakeLast {α : Type} {xs : List α} {n : Nat}
    (h0 : 1 ≤ n) :
    pyDropLast xs n ++ pyTakeLast xs n = xs := by
  unfold pyDropLast pyTakeLast
  rw [if_neg (by omega), if_neg (by omega)]
  exact List.take_append_drop (xs.length - n) xs

/-! ### Closed-form characterization of the construction loops -/

theorem length_downListFrom (hp : HParams) (attn tpb : List Nat)
    (tys : List String) :
    ∀ i, (downListFrom hp attn tpb i tys).length = tys.length := by
  induction tys with
  | nil => intro i; rfl
  | cons ty rest ih =>
    intro i
    simp only [downListFrom, List.length_cons, ih]

theorem length_upListFrom (hp : HParams) (rboc rattn rtpb : List Nat)
    (tys : List String) :
    ∀ i, (upListFrom hp rboc rattn rtpb i tys).length = tys.length := by
  induction tys with
  | nil => intro i; rfl
  | cons ty rest ih =>
    intro i
    simp only [upListFrom, List.length_cons, ih]

theorem getD_downListFrom (hp : HParams) (attn tpb : List Nat)
    (tys : List String) :
    ∀ i j, j < tys.length →
      (downListFrom hp attn tpb i tys).getD j dfltDown
        = downDesc hp attn tpb (i + j) (tys.getD j "") := by
  induction tys with
  | nil => intro i j hj; exact absurd hj (by simp)
  | cons ty rest ih =>
    intro i j hj
    match j with
    | 0 => simp [downListFrom]
    | j + 1 =>
      have hj' : j < rest.length := by simpa using hj
      have h : i + 1 + j = i + (j + 1) := by omega
      simp only [downListFrom, List.getD_cons_succ, ih (i + 1) j hj', h]

theorem getD_upListFrom (hp : HParams) (rboc rattn rtpb : List Nat)
    (tys : List String) :
    ∀ i j, j < tys.length →
      (upListFrom hp rboc rattn rtpb i tys).getD j dfltUp
        = upDesc hp rboc rattn rtpb (i + j) (tys.getD j "") := by
  induction tys with
  | nil => intro i j hj; exact absurd hj (by simp)
  | cons ty rest ih =>
    intro i j hj
    match j with
    | 0 => simp [upListFrom]
    | j + 1 =>
      have hj' : j < rest.length := by simpa using hj
      have h : i + 1 + j = i + (j + 1) := by omega
      simp only [upListFrom, List.getD_cons_succ, ih (i + 1) j hj', h]

theorem numLayers_of_mem_upListFrom (hp : HParams)
    (rboc rattn rtpb : List Nat) (tys : List String) :
    ∀ i b, b ∈ upListFrom hp rboc rattn rtpb i tys →
      b.numLayers = hp.layers_per_block + 1 := by
  induction tys with
  | nil => intro i b hb; exact absurd hb (by simp [upListFrom])
  | cons ty rest ih =>
    intro i b hb
    rcases List.mem_cons.mp hb with h | h
    · rw [h]; rfl
    · exact ih (i + 1) b h

theorem exceptBind_ok {eps alpha beta : Type} (a : alpha)
    (f : alpha → Except eps beta) :
    (Except.ok a >>= f : Except eps beta) = f a := rfl

theorem exceptBind_err {eps alpha beta : Type} (e : eps)
    (f : alpha → Except eps beta) :
    ((Except.error e : Except eps alpha) >>= f) = Except.error e := rfl

theorem downTypeHasAttn_cross :
    downTypeHasAttn "CrossAttnDownBlock2D" = .ok true := rfl

theorem downTypeHasAttn_plain : downTypeHasAttn "DownBlock2D" = .ok false := rfl

theorem upTypeHasAttn_cross :
    upTypeHasAttn "CrossAttnUpBlock2D" = .ok true := rfl

theorem upTypeHasAttn_plain : upTypeHasAttn "UpBlock2D" = .ok false := rfl

theorem buildDown_ok (hp : HParams) (attn tpb : List Nat) (tys : List String) :
    ∀ i c, c = hp.block_out_channels.getD (i - 1) 0 →
      i + tys.length ≤ hp.block_out_channels.length →
      i + tys.length ≤ attn.length →
      i + tys.length ≤ tpb.length →
      (∀ s ∈ tys, knownDownType s) →
      buildDownBlocks hp attn tpb i c tys = .ok (downListFrom hp attn tpb i tys) := by
  induction tys with
  | nil => intro i c _ _ _ _ _; rfl
  | cons ty rest ih =>
    intro i c hc hb ha ht hk
    have hbi : i < hp.block_out_channels.length := by
      simp only [List.length_cons] at hb; omega
    have hai : i < attn.length := by simp only [List.length_cons] at ha; omega
    have hti : i < tpb.length := by simp only [List.length_cons] at ht; omega
    have hrec := ih (i + 1) (hp.block_out_channels.getD i 0)
      (by rw [Nat.add_sub_cancel])
      (by simp only [List.length_cons] at hb; omega)
      (by simp only [List.length_cons] at ha; omega)
      (by simp only [List.length_cons] at ht; omega)
      (fun s hs => hk s (List.mem_cons_of_mem ty hs))
    subst hc
    rcases hk ty (List.mem_cons_self ty rest) with h | h <;> subst h <;>
      simp only [buildDownBlocks, pyIdx_ofNat_ok _ _ 0 hbi, pyIdx_ofNat_ok _ _ 0 hti,
        pyIdx_ofNat_ok _ _ 0 hai, exceptBind_ok, downTypeHasAttn_cross,
        downTypeHasAttn_plain, hrec] <;> rfl

theorem buildUp_ok (hp : HParams) (rboc rattn rtpb : List Nat)
    (hrb : rboc.length = hp.block_out_channels.length)
    (hB : 1 ≤ hp.block_out_channels.length) (tys : List String) :
    ∀ i c, c = rboc.getD (i - 1) 0 →
      i + tys.length ≤ rboc.length →
      i + tys.length ≤ rattn.length →
      i + tys.length ≤ rtpb.length →
      (∀ s ∈ tys, knownUpType s) →
      buildUpBlocks hp rboc rattn rtpb i c tys
        = .ok (upListFrom hp rboc rattn rtpb i tys) := by
  induction tys with
  | nil => intro i c _ _ _ _ _; rfl
  | cons ty rest ih =>
    intro i c hc hb ha ht hk
    have hbi : i < rboc.length := by
      simp only [List.length_cons] at hb; omega
    have hmin : min (i + 1) (hp.block_out_channels.length - 1) < rboc.length := by
      omega
    have hai : i < rattn.length := by simp only [List.length_cons] at ha; omega
    have hti : i < rtpb.length := by simp only [List.length_cons] at ht; omega
    have hrec := ih (i + 1) (rboc.getD i 0)
      (by rw [Nat.add_sub_cancel])
      (by simp only [List.length_cons] at hb; omega)
      (by simp only [List.length_cons] at ha; omega)
      (by simp only [List.length_cons] at ht; omega)
      (fun s hs => hk s (List.mem_cons_of_mem ty hs))
    subst hc
    rcases hk ty (List.mem_cons_self ty rest) with h | h <;> subst h <;>
      simp only [buildUpBlocks, pyIdx_ofNat_ok _ _ 0 hbi, pyIdx_ofNat_ok _ _ 0 hmin,
        pyIdx_ofNat_ok _ _ 0 hti, pyIdx_ofNat_ok _ _ 0 hai, exceptBind_ok,
        upTypeHasAttn_cross, upTypeHasAttn_plain, hrec] <;> rfl

theorem initModel_ok_of_le (hp : HParams)
    (hB : 1 ≤ hp.block_out_channels.length)
    (hD : hp.down_block_types.length ≤ hp.block_out_channels.length)
    (hU : hp.up_block_types.length ≤ hp.block_out_channels.length)
    (hA1 : hp.down_block_types.length ≤ (broadcastAttr hp.attention_head_dim
        hp.down_block_types.length).length)
    (hA2 : hp.up_block_types.length ≤ (broadcastAttr hp.attention_head_dim
        hp.down_block_types.length).length)
    (hA3 : 1 ≤ (broadcastAttr hp.attention_head_dim
        hp.down_block_types.length).length)
    (hT1 : hp.down_block_types.length
      ≤ (broadcastAttr hp.transformer_layers_per_block
        hp.down_block_types.length).length)
    (hT2 : hp.up_block_types.length
      ≤ (broadcastAttr hp.transformer_layers_per_block
        hp.down_block_types.length).length)
    (hT3 : 1 ≤ (broadcastAttr hp.transformer_layers_per_block
        hp.down_block_types.length).length)
    (hkd : ∀ s ∈ hp.down_block_types, knownDownType s)
    (hku : ∀ s ∈ hp.up_block_types, knownUpType s) :
    initModel hp = .ok (modelSpec hp) := by
  have hzero : pyIdx hp.block_out_channels 0
      = .ok (hp.block_out_channels.getD 0 0) :=
    pyIdx_ofNat_ok hp.block_out_channels 0 0 hB
  have hdown := buildDown_ok hp
    (broadcastAttr hp.attention_head_dim hp.down_block_types.length)
    (broadcastAttr hp.transformer_layers_per_block hp.down_block_types.length)
    hp.down_block_types 0 (hp.block_out_channels.getD 0 0) rfl
    (by omega) (by omega) (by omega) hkd
  have hmidIn := pyIdx_neg_one_ok hp.block_out_channels 0 hB
  have hmidT := pyIdx_neg_one_ok
    (broadcastAttr hp.transformer_layers_per_block hp.down_block_types.length)
    0 (by omega)
  have hmidA := pyIdx_neg_one_ok
    (broadcastAttr hp.attention_head_dim hp.down_block_types.length)
    0 (by omega)
  have hrb0 : pyIdx hp.block_out_channels.reverse 0
      = .ok (hp.block_out_channels.reverse.getD 0 0) :=
    pyIdx_ofNat_ok hp.block_out_channels.reverse 0 0
      (by rw [List.length_reverse]; omega)
  have hup := buildUp_ok hp hp.block_out_channels.reverse
    (broadcastAttr hp.attention_head_dim hp.down_block_types.length).reverse
    (broadcastAttr hp.transformer_layers_per_block hp.down_block_types.length).reverse
    (List.length_reverse _) hB hp.up_block_types 0
    (hp.block_out_channels.reverse.getD 0 0) rfl
    (by rw [List.length_reverse]; omega)
    (by rw [List.length_reverse]; omega)
    (by rw [List.length_reverse]; omega) hku
  simp only [initModel, hzero, exceptBind_ok, hdown, hmidIn, hmidT, hmidA,
    hrb0, hup, modelSpec]

theorem initModel_wf_eq (hp : HParams) (hwf : wellFormed hp) :
    initModel hp = .ok (modelSpec hp) := by
  obtain ⟨hB, hD, hU, hA, hT, hkd, hku⟩ := hwf
  exact initModel_ok_of_le hp hB (by omega) (by omega) (by omega) (by omega)
    (by omega) (by omega) (by omega) (by omega) hkd hku

/-! ### Skip-stack counting -/

theorem length_downBlockResSamples (i : Nat) (b : DownBlockDesc)
    (hidden emb : Tensor) (enc : Option Tensor) :
    (downBlockResSamples i b hidden emb enc).length
      = b.numLayers + cond b.addDownsample 1 0 := by
  cases hb : b.addDownsample <;> simp [downBlockResSamples, hb]

theorem downPathAux_stack_len (emb enc : Tensor) (bs : List DownBlockDesc) :
    ∀ i s stack, ((downPathAux emb enc i s stack bs).2).length
      = stack.length + downSkipCount bs := by
  induction bs with
  | nil => intro i s stack; simp [downPathAux, downSkipCount]
  | cons b rest ih =>
    intro i s stack
    simp only [downPathAux, downSkipCount]
    rw [ih, List.length_append, length_downBlockResSamples]
    omega

theorem downPathAux_stack_extend (emb enc : Tensor) (bs : List DownBlockDesc) :
    ∀ i s stack, ∃ tl, (downPathAux emb enc i s stack bs).2 = stack ++ tl := by
  induction bs with
  | nil => intro i s stack; exact ⟨[], by simp [downPathAux]⟩
  | cons b rest ih =>
    intro i s stack
    obtain ⟨tl, htl⟩ := ih (i + 1)
      (Tensor.downOut i s emb (if b.hasAttentions then some enc else none))
      (stack ++ downBlockResSamples i b s emb
        (if b.hasAttentions then some enc else none))
    refine ⟨downBlockResSamples i b s emb
      (if b.hasAttentions then some enc else none) ++ tl, ?_⟩
    simp only [downPathAux, htl, List.append_assoc]

theorem downSkipCount_downListFrom (hp : HParams) (attn tpb : List Nat)
    (tys : List String) :
    ∀ i, i + tys.length = hp.block_out_channels.length →
      downSkipCount (downListFrom hp attn tpb i tys)
        = tys.length * hp.layers_per_block + tys.length - 1 := by
  induction tys with
  | nil => intro i _; simp [downListFrom, downSkipCount]
  | cons ty rest ih =>
    intro i hlen
    cases rest with
    | nil =>
      have hi : (i == hp.block_out_channels.length - 1) = true := by
        simp only [List.length_cons, List.length_nil] at hlen
        have h : i = hp.block_out_channels.length - 1 := by omega
        simpa using h
      simp only [downListFrom, downSkipCount, downDesc, hi, Bool.not_true,
        cond_false, List.length_cons, List.length_nil]
      omega
    | cons s rest' =>
      have hlen' : i + 1 + (s :: rest').length
          = hp.block_out_channels.length := by
        simp only [List.length_cons] at hlen ⊢
        omega
      have hne : (i == hp.block_out_channels.length - 1) = false := by
        simp only [List.length_cons] at hlen
        have h : i ≠ hp.block_out_channels.length - 1 := by omega
        simpa using h
      have hrec := ih (i + 1) hlen'
      rw [show downListFrom hp attn tpb i (ty :: s :: rest')
          = downDesc hp attn tpb i ty
            :: downListFrom hp attn tpb (i + 1) (s :: rest') from rfl]
      rw [show downSkipCount (downDesc hp attn tpb i ty
            :: downListFrom hp attn tpb (i + 1) (s :: rest'))
          = (downDesc hp attn tpb i ty).numLayers
            + cond (downDesc hp attn tpb i ty).addDownsample 1 0
            + downSkipCount (downListFrom hp attn tpb (i + 1) (s :: rest'))
          from rfl]
      rw [hrec]
      simp only [downDesc, hne, Bool.not_false, cond_true, List.length_cons]
      rw [show (rest'.length + 1 + 1) * hp.layers_per_block
          = (rest'.length + 1) * hp.layers_per_block + hp.layers_per_block
          from Nat.succ_mul (rest'.length + 1) hp.layers_per_block]
      generalize (rest'.length + 1) * hp.layers_per_block = K
      omega

theorem upNeedCount_upListFrom (hp : HParams) (rboc rattn rtpb : List Nat)
    (tys : List String) :
    ∀ i, upNeedCount (upListFrom hp rboc rattn rtpb i tys)
      = tys.length * (hp.layers_per_block + 1) := by
  induction tys with
  | nil => intro i; simp [upListFrom, upNeedCount]
  | cons ty rest ih =>
    intro i
    simp only [upListFrom, upNeedCount, ih, List.length_cons, upDesc]
    ring

theorem upNeedCount_append (l1 l2 : List UpBlockDesc) :
    upNeedCount (l1 ++ l2) = upNeedCount l1 + upNeedCount l2 := by
  induction l1 with
  | nil => simp [upNeedCount]
  | cons b rest ih =>
    rw [List.cons_append]
    rw [show upNeedCount (b :: (rest ++ l2))
        = b.numLayers + upNeedCount (rest ++ l2) from rfl]
    rw [ih]
    rw [show upNeedCount (b :: rest) = b.numLayers + upNeedCount rest from rfl]
    omega

/-! ### Behaviour of the forward up loop on the skip stack -/

theorem upPathAux_ok_of_le (emb enc : Tensor) (bs : List UpBlockDesc) :
    ∀ i s stack, (∀ b ∈ bs, 1 ≤ b.numLayers) →
      upNeedCount bs ≤ stack.length →
      ∃ out, upPathAux emb enc i s stack bs
        = .ok (out, stack.take (stack.length - upNeedCount bs)) := by
  induction bs with
  | nil =>
    intro i s stack _ _
    refine ⟨s, ?_⟩
    simp [upPathAux, upNeedCount, List.take_length]
  | cons b rest ih =>
    intro i s stack hpos hle
    have hb1 : 1 ≤ b.numLayers := hpos b (List.mem_cons_self b rest)
    have hneed : b.numLayers + upNeedCount rest ≤ stack.length := by
      simpa [upNeedCount] using hle
    have hlen : (pyTakeLast stack b.numLayers).length = b.numLayers :=
      pyTakeLast_len hb1 (by omega)
    have hlen' : (pyDropLast stack b.numLayers).length
        = stack.length - b.numLayers := pyDropLast_len hb1
    obtain ⟨out, hout⟩ := ih (i + 1)
      (Tensor.upOut i s emb (pyTakeLast stack b.numLayers)
        (if b.hasAttentions then some enc else none))
      (pyDropLast stack b.numLayers)
      (fun x hx => hpos x (List.mem_cons_of_mem b hx))
      (by omega)
    refine ⟨out, ?_⟩
    simp only [upPathAux, hlen,
      if_neg (by omega : ¬ b.numLayers < b.numLayers), hout]
    have htake : (pyDropLast stack b.numLayers).take
        ((pyDropLast stack b.numLayers).length - upNeedCount rest)
        = stack.take (stack.length - upNeedCount (b :: rest)) := by
      rw [hlen']
      unfold pyDropLast
      rw [if_neg (by omega)]
      rw [List.take_take]
      have hmin : (stack.length - b.numLayers - upNeedCount rest)
          ⊓ (stack.length - b.numLayers)
          = stack.length - upNeedCount (b :: rest) := by
        simp only [upNeedCount]
        omega
      rw [hmin]
    rw [htake]

theorem upPathAux_underflow (emb enc : Tensor) (bs : List UpBlockDesc) :
    ∀ i s stack, (∀ b ∈ bs, 1 ≤ b.numLayers) →
      stack.length < upNeedCount bs →
      upPathAux emb enc i s stack bs = .error .skipStackUnderflow := by
  induction bs with
  | nil =>
    intro i s stack _ h
    exact absurd h (by simp [upNeedCount])
  | cons b rest ih =>
    intro i s stack hpos hlt
    have hb1 : 1 ≤ b.numLayers := hpos b (List.mem_cons_self b rest)
    by_cases hc : stack.length < b.numLayers
    · have hlen : (pyTakeLast stack b.numLayers).length = stack.length := by
        unfold pyTakeLast
        rw [if_neg (by omega), List.length_drop]
        omega
      simp only [upPathAux, hlen, if_pos hc]
    · push_neg at hc
      have hlen : (pyTakeLast stack b.numLayers).length = b.numLayers :=
        pyTakeLast_len hb1 hc
      have hlen' : (pyDropLast stack b.numLayers).length
          = stack.length - b.numLayers := pyDropLast_len hb1
      have hrest : (pyDropLast stack b.numLayers).length < upNeedCount rest := by
        simp only [upNeedCount] at hlt
        omega
      simp only [upPathAux, hlen,
        if_neg (by omega : ¬ b.numLayers < b.numLayers)]
      exact ih (i + 1) _ _ (fun x hx => hpos x (List.mem_cons_of_mem b hx)) hrest

theorem upPathAux_ne_missingAux (emb enc : Tensor) (bs : List UpBlockDesc) :
    ∀ i s stack, upPathAux emb enc i s stack bs ≠ .error .missingAux := by
  induction bs with
  | nil => intro i s stack h; simp [upPathAux] at h
  | cons b rest ih =>
    intro i s stack h
    by_cases hc : (pyTakeLast stack b.numLayers).length < b.numLayers
    · simp only [upPathAux, if_pos hc] at h
      exact FwdError.noConfusion (Except.error.inj h)
    · simp only [upPathAux, if_neg hc] at h
      exact ih (i + 1) _ _ h

theorem reverse_getD_zero (l : List Nat) (h : 1 ≤ l.length) :
    l.reverse.getD 0 0 = l.getD (l.length - 1) 0 := by
  have h0 : 0 < l.reverse.length := by rw [List.length_reverse]; omega
  have h1 : l.length - 1 < l.length := by omega
  rw [List.getD_eq_getElem _ _ h0, List.getD_eq_getElem _ _ h1,
    List.getElem_reverse]
  simp only [Nat.sub_zero]

theorem model_eq_of_ok (hp : HParams) (m : Model) (hwf : wellFormed hp)
    (hok : initModel hp = .ok m) : m = modelSpec hp :=
  Except.ok.inj (hok.symm.trans (initModel_wf_eq hp hwf))

/-- C9: `forward` is deterministic — it is a pure function of the constructed
model and the call's inputs, so two invocations with identical sample,
timesteps, encoder hidden states and auxiliary conditioning inputs yield the
same result; the embedded `forward` threads no mutable state and consults no
other source of data. -/
theorem claim9_deterministic (m : Model) (a b : FwdArgs) (h : a = b) :
    forward m a = forward m b := by rw [h]

theorem claim9_witness :
    forward (modelSpec cfgValid)
      { sample := .free "s", timesteps := .free "t",
        encoderHiddenStates := .free "e" }
    = forward (modelSpec cfgValid)
      { sample := .free "s", timesteps := .free "t",
        encoderHiddenStates := .free "e" } :=
  claim9_deterministic (modelSpec cfgValid)
    { sample := .free "s", timesteps := .free "t",
      encoderHiddenStates := .free "e" }
    { sample := .free "s", timesteps := .free "t",
      encoderHiddenStates := .free "e" } rfl

/-- C5: before invoking an up block, the up loop takes exactly that block's
resnet count of tensors off the tail of the skip stack (when enough remain):
the slice has exactly `numLayers` entries, re-appending it to the remaining
stack restores the original stack (so the popped tensors keep their original
down-path production order, and they are the tail), and the loop continues by
invoking the block on precisely that slice. -/
theorem claim5_pop_order (emb enc s : Tensor) (stack : List Tensor) (i : Nat)
    (b : UpBlockDesc) (rest : List UpBlockDesc)
    (h1 : 1 ≤ b.numLayers) (h2 : b.numLayers ≤ stack.length) :
    (pyTakeLast stack b.numLayers).length = b.numLayers
    ∧ pyDropLast stack b.numLayers ++ pyTakeLast stack b.numLayers = stack
    ∧ upPathAux emb enc i s stack (b :: rest)
      = upPathAux emb enc (i + 1)
          (Tensor.upOut i s emb (pyTakeLast stack b.numLayers)
            (if b.hasAttentions then some enc else none))
          (pyDropLast stack b.numLayers) rest := by
  have hlen : (pyTakeLast stack b.numLayers).length = b.numLayers :=
    pyTakeLast_len h1 h2
  refine ⟨hlen, pyDropLast_append_pyTakeLast h1, ?_⟩
  simp only [upPathAux, hlen, if_neg (by omega : ¬ b.numLayers < b.numLayers)]

theorem claim5_witness :
    (pyTakeLast [Tensor.free "a", Tensor.free "b", Tensor.free "c"]
        (dfltUp.numLayers + 2)).length = dfltUp.numLayers + 2
    ∧ pyDropLast [Tensor.free "a", Tensor.free "b", Tensor.free "c"]
        (dfltUp.numLayers + 2)
      ++ pyTakeLast [Tensor.free "a", Tensor.free "b", Tensor.free "c"]
        (dfltUp.numLayers + 2)
      = [Tensor.free "a", Tensor.free "b", Tensor.free "c"]
    ∧ upPathAux (.free "emb") (.free "enc") 0 (.free "s")
        [Tensor.free "a", Tensor.free "b", Tensor.free "c"]
        ({ dfltUp with numLayers := dfltUp.numLayers + 2 } :: [])
      = upPathAux (.free "emb") (.free "enc") 1
          (Tensor.upOut 0 (.free "s") (.free "emb")
            (pyTakeLast [Tensor.free "a", Tensor.free "b", Tensor.free "c"]
              (dfltUp.numLayers + 2))
            (if ({ dfltUp with
                    numLayers := dfltUp.numLayers + 2 } : UpBlockDesc).hasAttentions
              then some (.free "enc") else none))
          (pyDropLast [Tensor.free "a", Tensor.free "b", Tensor.free "c"]
            (dfltUp.numLayers + 2)) [] :=
  claim5_pop_order (.free "emb") (.free "enc") (.free "s")
    [Tensor.free "a", Tensor.free "b", Tensor.free "c"] 0
    { dfltUp with numLayers := dfltUp.numLayers + 2 } []
    (by decide) (by decide)

/-- C7: for a model built from a valid config, `add_downsample` is set on
every down-stage except the last one, and `add_upsample` is set on every
up-stage except the last one. -/
theorem claim7_sampling_flags (hp : HParams) (m : Model) (hwf : wellFormed hp)
    (hok : initModel hp = .ok m) :
    (∀ i, i < m.downBlocks.length →
      (((m.downBlocks.getD i dfltDown).addDownsample = true)
        ↔ i ≠ m.downBlocks.length - 1))
    ∧ (∀ i, i < m.upBlocks.length →
      (((m.upBlocks.getD i dfltUp).addUpsample = true)
        ↔ i ≠ m.upBlocks.length - 1)) := by
  obtain ⟨hB, hD, hU, hA, hT, hkd, hku⟩ := hwf
  have hm := model_eq_of_ok hp m ⟨hB, hD, hU, hA, hT, hkd, hku⟩ hok
  subst hm
  simp only [modelSpec] at *
  constructor
  · intro i hi
    rw [length_downListFrom] at hi
    rw [getD_downListFrom _ _ _ _ 0 i hi, length_downListFrom]
    simp only [downDesc, Nat.zero_add, Bool.not_eq_eq_eq_not, Bool.not_true,
      beq_eq_false_iff_ne]
    rw [hD]
  · intro i hi
    rw [length_upListFrom] at hi
    rw [getD_upListFrom _ _ _ _ _ 0 i hi, length_upListFrom]
    simp only [upDesc, Nat.zero_add, Bool.not_eq_eq_eq_not, Bool.not_true,
      beq_eq_false_iff_ne]
    rw [hU, hD]

theorem claim7_witness :
    ((((modelSpec cfgValid).downBlocks.getD 0 dfltDown).addDownsample = true)
      ↔ 0 ≠ (modelSpec cfgValid).downBlocks.length - 1)
    ∧ ((((modelSpec cfgValid).upBlocks.getD 1 dfltUp).addUpsample = true)
      ↔ 1 ≠ (modelSpec cfgValid).upBlocks.length - 1) :=
  ⟨(claim7_sampling_flags cfgValid (modelSpec cfgValid) (by decide) rfl).1 0
      (by decide),
   (claim7_sampling_flags cfgValid (modelSpec cfgValid) (by decide) rfl).2 1
      (by decide)⟩

/-- C6: for every up-stage `i` of a model built from a valid config,
`prev_output_channel` is the previous stage's output channel — initialized,
for the first up-stage, to the last down-stage's channel count —,
`output_channel` is the reversed channel list at index `i`, and
`input_channel` is the reversed channel list at index `i + 1` clamped to the
last valid index. -/
theorem claim6_up_channels (hp : HParams) (m : Model) (hwf : wellFormed hp)
    (hok : initModel hp = .ok m) (i : Nat) (hi : i < m.upBlocks.length) :
    ((m.upBlocks.getD i dfltUp).prevOutputChannel
      = if i = 0
        then hp.block_out_channels.getD (hp.block_out_channels.length - 1) 0
        else (m.upBlocks.getD (i - 1) dfltUp).outChannels)
    ∧ (m.upBlocks.getD i dfltUp).outChannels
      = hp.block_out_channels.reverse.getD i 0
    ∧ (m.upBlocks.getD i dfltUp).inChannels
      = hp.block_out_channels.reverse.getD
          (min (i + 1) (hp.block_out_channels.length - 1)) 0 := by
  obtain ⟨hB, hD, hU, hA, hT, hkd, hku⟩ := hwf
  have hm := model_eq_of_ok hp m ⟨hB, hD, hU, hA, hT, hkd, hku⟩ hok
  subst hm
  simp only [modelSpec] at hi ⊢
  rw [length_upListFrom] at hi
  rw [getD_upListFrom _ _ _ _ _ 0 i hi]
  refine ⟨?_, ?_, ?_⟩
  · by_cases h0 : i = 0
    · subst h0
      rw [if_pos rfl]
      simp only [upDesc, Nat.zero_add, Nat.zero_sub]
      exact reverse_getD_zero hp.block_out_channels hB
    · rw [if_neg h0]
      have hi' : i - 1 < hp.up_block_types.length := by omega
      rw [getD_upListFrom _ _ _ _ _ 0 (i - 1) hi']
      simp only [upDesc, Nat.zero_add]
  · simp only [upDesc, Nat.zero_add]
  · simp only [upDesc, Nat.zero_add]

theorem claim6_witness :
    (((modelSpec cfgValid).upBlocks.getD 1 dfltUp).prevOutputChannel
      = if 1 = 0
        then cfgValid.block_out_channels.getD
          (cfgValid.block_out_channels.length - 1) 0
        else ((modelSpec cfgValid).upBlocks.getD (1 - 1) dfltUp).outChannels)
    ∧ ((modelSpec cfgValid).upBlocks.getD 1 dfltUp).outChannels
      = cfgValid.block_out_channels.reverse.getD 1 0
    ∧ ((modelSpec cfgValid).upBlocks.getD 1 dfltUp).inChannels
      = cfgValid.block_out_channels.reverse.getD
          (min (1 + 1) (cfgValid.block_out_channels.length - 1)) 0 :=
  claim6_up_channels cfgValid (modelSpec cfgValid) (by decide) rfl 1 (by decide)

/-- C8: a scalar attention-head count, and likewise a scalar
transformer-layer depth, is broadcast to a per-stage sequence of length equal
to the number of down-stages with every entry equal to the scalar; a supplied
sequence is left unchanged; and the constructed model uses each (broadcast)
sequence indexwise on the down path and reversed on the up path. -/
theorem claim8_broadcast (hp : HParams) (m : Model) (hwf : wellFormed hp)
    (hok : initModel hp = .ok m) :
    (∀ k : Nat, hp.attention_head_dim = .scalar k →
      (broadcastAttr hp.attention_head_dim
          hp.down_block_types.length).length = hp.down_block_types.length
      ∧ ∀ x ∈ broadcastAttr hp.attention_head_dim
          hp.down_block_types.length, x = k)
    ∧ (∀ k : Nat, hp.transformer_layers_per_block = .scalar k →
      (broadcastAttr hp.transformer_layers_per_block
          hp.down_block_types.length).length = hp.down_block_types.length
      ∧ ∀ x ∈ broadcastAttr hp.transformer_layers_per_block
          hp.down_block_types.length, x = k)
    ∧ (∀ (l : List Nat) (n : Nat), broadcastAttr (.seq l) n = l)
    ∧ (∀ i, i < m.downBlocks.length →
        (m.downBlocks.getD i dfltDown).attnHeads
          = (broadcastAttr hp.attention_head_dim
              hp.down_block_types.length).getD i 0
        ∧ (m.downBlocks.getD i dfltDown).transformerLayers
          = (broadcastAttr hp.transformer_layers_per_block
              hp.down_block_types.length).getD i 0)
    ∧ (∀ i, i < m.upBlocks.length →
        (m.upBlocks.getD i dfltUp).attnHeads
          = (broadcastAttr hp.attention_head_dim
              hp.down_block_types.length).reverse.getD i 0
        ∧ (m.upBlocks.getD i dfltUp).transformerLayers
          = (broadcastAttr hp.transformer_layers_per_block
              hp.down_block_types.length).reverse.getD i 0) := by
  obtain ⟨hB, hD, hU, hA, hT, hkd, hku⟩ := hwf
  have hm := model_eq_of_ok hp m ⟨hB, hD, hU, hA, hT, hkd, hku⟩ hok
  subst hm
  refine ⟨?_, ?_, ?_, ?_, ?_⟩
  · intro k hk
    rw [hk]
    exact ⟨List.length_replicate _ _,
      fun x hx => List.eq_of_mem_replicate hx⟩
  · intro k hk
    rw [hk]
    exact ⟨List.length_replicate _ _,
      fun x hx => List.eq_of_mem_replicate hx⟩
  · intro l n
    rfl
  · intro i hi
    simp only [modelSpec] at hi ⊢
    rw [length_downListFrom] at hi
    rw [getD_downListFrom _ _ _ _ 0 i hi]
    exact ⟨by simp only [downDesc, Nat.zero_add],
      by simp only [downDesc, Nat.zero_add]⟩
  · intro i hi
    simp only [modelSpec] at hi ⊢
    rw [length_upListFrom] at hi
    rw [getD_upListFrom _ _ _ _ _ 0 i hi]
    exact ⟨by simp only [upDesc, Nat.zero_add],
      by simp only [upDesc, Nat.zero_add]⟩

theorem claim8_witness :
    (∀ k : Nat, cfgValid.attention_head_dim = .scalar k →
      (broadcastAttr cfgValid.attention_head_dim
          cfgValid.down_block_types.length).length
        = cfgValid.down_block_types.length
      ∧ ∀ x ∈ broadcastAttr cfgValid.attention_head_dim
          cfgValid.down_block_types.length, x = k)
    ∧ (∀ k : Nat, cfgValid.transformer_layers_per_block = .scalar k →
      (broadcastAttr cfgValid.transformer_layers_per_block
          cfgValid.down_block_types.length).length
        = cfgValid.down_block_types.length
      ∧ ∀ x ∈ broadcastAttr cfgValid.transformer_layers_per_block
          cfgValid.down_block_types.length, x = k)
    ∧ (∀ (l : List Nat) (n : Nat), broadcastAttr (.seq l) n = l)
    ∧ (∀ i, i < (modelSpec cfgValid).downBlocks.length →
        ((modelSpec cfgValid).downBlocks.getD i dfltDown).attnHeads
          = (broadcastAttr cfgValid.attention_head_dim
              cfgValid.down_block_types.length).getD i 0
        ∧ ((modelSpec cfgValid).downBlocks.getD i dfltDown).transformerLayers
          = (broadcastAttr cfgValid.transformer_layers_per_block
              cfgValid.down_block_types.length).getD i 0)
    ∧ (∀ i, i < (modelSpec cfgValid).upBlocks.length →
        ((modelSpec cfgValid).upBlocks.getD i dfltUp).attnHeads
          = (broadcastAttr cfgValid.attention_head_dim
              cfgValid.down_block_types.length).reverse.getD i 0
        ∧ ((modelSpec cfgValid).upBlocks.getD i dfltUp).transformerLayers
          = (broadcastAttr cfgValid.transformer_layers_per_block
              cfgValid.down_block_types.length).reverse.getD i 0) :=
  claim8_broadcast cfgValid (modelSpec cfgValid) (by decide) rfl

theorem forwardCore_ne_missingAux (m : Model) (emb enc smp : Tensor) :
    forwardCore m emb enc smp ≠ .error .missingAux := by
  simp only [forwardCore]
  split
  · rename_i e heq
    intro hc
    injection hc with he
    subst he
    exact upPathAux_ne_missingAux _ _ _ _ _ _ heq
  · intro hc
    exact Except.noConfusion hc

theorem forwardCore_underflow (m : Model) (emb enc smp : Tensor)
    (hpos : ∀ b ∈ m.upBlocks, 1 ≤ b.numLayers)
    (hlt : 1 + downSkipCount m.downBlocks < upNeedCount m.upBlocks) :
    forwardCore m emb enc smp = .error .skipStackUnderflow := by
  simp only [forwardCore]
  rw [upPathAux_underflow emb enc m.upBlocks 0 _ _ hpos
    (by rw [downPathAux_stack_len]; simpa using hlt)]

/-- C4: `forward` fails with the missing-auxiliary-conditioning error
(the failed assertion, i.e. the PreconditionError) exactly when the config's
conditioning mode is the auxiliary `"text_time"` mode and `text_embeds` or
`time_ids` is absent; and when the conditioning mode is none, supplied
`text_embeds`/`time_ids` are ignored — the call computes exactly what it
computes without them, using only the timestep embedding. -/
theorem claim4_aux_precondition (m : Model) :
    (∀ a : FwdArgs, (forward m a = .error .missingAux
      ↔ (m.additionEmbedType = some "text_time"
          ∧ (a.textEmbeds = none ∨ a.timeIds = none))))
    ∧ (m.additionEmbedType = none →
      ∀ s t e x y, forward m (⟨s, t, e, x, y⟩ : FwdArgs)
        = forward m (⟨s, t, e, none, none⟩ : FwdArgs)) := by
  constructor
  · intro a
    constructor
    · intro h
      by_cases hm : m.additionEmbedType = some "text_time"
      · refine ⟨hm, ?_⟩
        rcases hx : a.textEmbeds with _ | te
        · exact Or.inl rfl
        · rcases hy : a.timeIds with _ | ti
          · exact Or.inr rfl
          · exfalso
            simp only [forward] at h
            rw [if_pos hm, hx, hy] at h
            exact forwardCore_ne_missingAux m _ _ _ h
      · exfalso
        simp only [forward] at h
        rw [if_neg hm] at h
        exact forwardCore_ne_missingAux m _ _ _ h
    · rintro ⟨hm, hor⟩
      simp only [forward]
      rw [if_pos hm]
      rcases hor with h | h
      · rw [h]
      · rcases hx : a.textEmbeds with _ | te
        · rfl
        · rw [h]
  · intro hm s t e x y
    have hcond : ¬ (m.additionEmbedType = some "text_time") := by
      rw [hm]
      exact fun hc => Option.noConfusion hc
    simp only [forward]
    rw [if_neg hcond, if_neg hcond]

theorem claim4_witness :
    (forward (modelSpec cfgAux)
        { sample := .free "s", timesteps := .free "t",
          encoderHiddenStates := .free "e" }
      = .error .missingAux)
    ∧ (forward (modelSpec cfgValid)
        { sample := .free "s", timesteps := .free "t",
          encoderHiddenStates := .free "e", textEmbeds := some (.free "p"),
          timeIds := some (.free "q") }
      = forward (modelSpec cfgValid)
        { sample := .free "s", timesteps := .free "t",
          encoderHiddenStates := .free "e", textEmbeds := none,
          timeIds := none }) :=
  ⟨((claim4_aux_precondition (modelSpec cfgAux)).1
      { sample := .free "s", timesteps := .free "t",
        encoderHiddenStates := .free "e" }).mpr ⟨rfl, Or.inl rfl⟩,
   (claim4_aux_precondition (modelSpec cfgValid)).2 rfl (.free "s")
     (.free "t") (.free "e") (some (.free "p")) (some (.free "q"))⟩

/-- C1: if, on the up path, the skip stack is exhausted before an up-stage's
resnet count is satisfied (the up path in total demands more tensors than the
down path produced — each stage pops until its count is met, so the first
stage whose count cannot be met fails), `forward` fails with the
skip-stack-underflow error instead of completing. -/
theorem claim1_up_path_underflow (m : Model) (a : FwdArgs)
    (haux : m.additionEmbedType = some "text_time" →
      (∃ te, a.textEmbeds = some te) ∧ (∃ ti, a.timeIds = some ti))
    (hpos : ∀ b ∈ m.upBlocks, 1 ≤ b.numLayers)
    (hlt : 1 + downSkipCount m.downBlocks < upNeedCount m.upBlocks) :
    forward m a = .error .skipStackUnderflow := by
  simp only [forward]
  by_cases hm : m.additionEmbedType = some "text_time"
  · obtain ⟨⟨te, hte⟩, ⟨ti, hti⟩⟩ := haux hm
    rw [if_pos hm, hte, hti]
    exact forwardCore_underflow m _ _ _ hpos hlt
  · rw [if_neg hm]
    exact forwardCore_underflow m _ _ _ hpos hlt

theorem claim1_witness :
    initModel cfgUnder = .ok (modelSpec cfgUnder)
    ∧ forward (modelSpec cfgUnder)
        { sample := .free "s", timesteps := .free "t",
          encoderHiddenStates := .free "e" }
      = .error .skipStackUnderflow :=
  ⟨rfl,
   claim1_up_path_underflow (modelSpec cfgUnder)
     { sample := .free "s", timesteps := .free "t",
       encoderHiddenStates := .free "e" }
     (fun hc => absurd hc (by decide)) (by decide) (by decide)⟩

theorem upBlocks_numLayers_pos (hp : HParams) (b : UpBlockDesc)
    (hb : b ∈ (modelSpec hp).upBlocks) : 1 ≤ b.numLayers := by
  have h := numLayers_of_mem_upListFrom hp hp.block_out_channels.reverse
    (broadcastAttr hp.attention_head_dim hp.down_block_types.length).reverse
    (broadcastAttr hp.transformer_layers_per_block
      hp.down_block_types.length).reverse
    hp.up_block_types 0 b (by simpa [modelSpec] using hb)
  omega

theorem downStack_len_spec (hp : HParams) (hwf : wellFormed hp)
    (emb enc s0 : Tensor) :
    (downStack (modelSpec hp) emb enc s0).length
      = hp.down_block_types.length * hp.layers_per_block
        + hp.down_block_types.length := by
  obtain ⟨hB, hD, hU, hA, hT, hkd, hku⟩ := hwf
  unfold downStack
  rw [downPathAux_stack_len]
  have hcnt : downSkipCount (modelSpec hp).downBlocks
      = hp.down_block_types.length * hp.layers_per_block
        + hp.down_block_types.length - 1 := by
    simp only [modelSpec]
    exact downSkipCount_downListFrom hp _ _ hp.down_block_types 0 (by omega)
  rw [hcnt]
  simp only [List.length_cons, List.length_nil]
  generalize hp.down_block_types.length * hp.layers_per_block = K
  omega

theorem upNeed_spec (hp : HParams) :
    upNeedCount (modelSpec hp).upBlocks
      = hp.up_block_types.length * (hp.layers_per_block + 1) := by
  simp only [modelSpec]
  exact upNeedCount_upListFrom hp _ _ _ hp.up_block_types 0

/-- C3: for a model built from a valid config, the number of skip-stack
entries produced by the down path (including the input convolution's seed
entry) equals the number the up path consumes, and after the up loop runs on
that stack the remaining stack is empty. -/
theorem claim3_skip_balance (hp : HParams) (m : Model) (hwf : wellFormed hp)
    (hok : initModel hp = .ok m) (emb enc s0 smid : Tensor) :
    (downStack m emb enc s0).length = upNeedCount m.upBlocks
    ∧ ∃ out, upPathAux emb enc 0 smid (downStack m emb enc s0) m.upBlocks
        = .ok (out, ([] : List Tensor)) := by
  obtain ⟨hB, hD, hU, hA, hT, hkd, hku⟩ := hwf
  have hm := model_eq_of_ok hp m ⟨hB, hD, hU, hA, hT, hkd, hku⟩ hok
  subst hm
  have hlen := downStack_len_spec hp ⟨hB, hD, hU, hA, hT, hkd, hku⟩ emb enc s0
  have hneed := upNeed_spec hp
  have hbal : (downStack (modelSpec hp) emb enc s0).length
      = upNeedCount (modelSpec hp).upBlocks := by
    rw [hlen, hneed, hU, hD, Nat.mul_succ]
  refine ⟨hbal, ?_⟩
  obtain ⟨out, hout⟩ := upPathAux_ok_of_le emb enc (modelSpec hp).upBlocks 0
    smid (downStack (modelSpec hp) emb enc s0)
    (fun b hb => upBlocks_numLayers_pos hp b hb) (le_of_eq hbal.symm)
  refine ⟨out, ?_⟩
  rw [hout, show (downStack (modelSpec hp) emb enc s0).length
      - upNeedCount (modelSpec hp).upBlocks = 0 from by omega]
  rw [List.take_zero]

theorem claim3_witness :
    (downStack (modelSpec cfgValid) (.free "emb") (.free "enc")
        (.free "s0")).length = upNeedCount (modelSpec cfgValid).upBlocks
    ∧ ∃ out, upPathAux (.free "emb") (.free "enc") 0 (.free "smid")
        (downStack (modelSpec cfgValid) (.free "emb") (.free "enc")
          (.free "s0"))
        (modelSpec cfgValid).upBlocks
      = .ok (out, ([] : List Tensor)) :=
  claim3_skip_balance cfgValid (modelSpec cfgValid) (by decide) rfl
    (.free "emb") (.free "enc") (.free "s0") (.free "smid")

/-- C10: the output of the input convolution is pushed as the first (bottom)
skip-stack entry before any down block runs, and for a model built from a
valid config that bottom entry is among the tensors the final up-stage pops:
running the up loop over all but the last up block leaves exactly the first
`bl.numLayers` produced entries, whose head is the input convolution's
output. -/
theorem claim10_conv_in_skip (hp : HParams) (m : Model) (hwf : wellFormed hp)
    (hok : initModel hp = .ok m) (emb enc smp smid : Tensor)
    (bl : UpBlockDesc) (hlast : m.upBlocks.getLast? = some bl) :
    (downStack m emb enc (Tensor.convIn smp)).head? = some (Tensor.convIn smp)
    ∧ ∃ out,
        upPathAux emb enc 0 smid (downStack m emb enc (Tensor.convIn smp))
          m.upBlocks.dropLast
        = .ok (out,
            (downStack m emb enc (Tensor.convIn smp)).take bl.numLayers)
        ∧ Tensor.convIn smp
            ∈ (downStack m emb enc (Tensor.convIn smp)).take bl.numLayers := by
  obtain ⟨hB, hD, hU, hA, hT, hkd, hku⟩ := hwf
  have hm := model_eq_of_ok hp m ⟨hB, hD, hU, hA, hT, hkd, hku⟩ hok
  subst hm
  obtain ⟨tl, htl⟩ := downPathAux_stack_extend emb enc
    (modelSpec hp).downBlocks 0 (Tensor.convIn smp) [Tensor.convIn smp]
  have hstack : downStack (modelSpec hp) emb enc (Tensor.convIn smp)
      = Tensor.convIn smp :: tl := by
    unfold downStack
    rw [htl, List.singleton_append]
  have hsplit : (modelSpec hp).upBlocks.dropLast ++ [bl]
      = (modelSpec hp).upBlocks :=
    List.dropLast_append_getLast? bl hlast
  have hbl : bl ∈ (modelSpec hp).upBlocks := by
    rw [← hsplit]
    exact List.mem_append_right _ (List.mem_cons_self bl [])
  have hbln : bl.numLayers = hp.layers_per_block + 1 :=
    numLayers_of_mem_upListFrom hp _ _ _ hp.up_block_types 0 bl
      (by simpa [modelSpec] using hbl)
  have hlen := downStack_len_spec hp ⟨hB, hD, hU, hA, hT, hkd, hku⟩ emb enc
    (Tensor.convIn smp)
  have hneed := upNeed_spec hp
  have hneedsplit : upNeedCount (modelSpec hp).upBlocks.dropLast
      + bl.numLayers = upNeedCount (modelSpec hp).upBlocks := by
    conv_rhs => rw [← hsplit]
    rw [upNeedCount_append]
    simp [upNeedCount]
  have htot : (downStack (modelSpec hp) emb enc (Tensor.convIn smp)).length
      = upNeedCount (modelSpec hp).upBlocks := by
    rw [hlen, hneed, hU, hD, Nat.mul_succ]
  obtain ⟨out, hout⟩ := upPathAux_ok_of_le emb enc
    (modelSpec hp).upBlocks.dropLast 0 smid
    (downStack (modelSpec hp) emb enc (Tensor.convIn smp))
    (fun b hb => upBlocks_numLayers_pos hp b (List.dropLast_subset _ hb))
    (by omega)
  refine ⟨by rw [hstack]; rfl, out, ?_, ?_⟩
  · rw [hout]
    rw [show (downStack (modelSpec hp) emb enc (Tensor.convIn smp)).length
        - upNeedCount (modelSpec hp).upBlocks.dropLast = bl.numLayers
      from by omega]
  · rw [hstack, hbln, List.take_succ_cons]
    exact List.mem_cons_self _ _

theorem claim10_witness :
    (downStack (modelSpec cfgValid) (.free "emb") (.free "enc")
        (Tensor.convIn (.free "x"))).head?
      = some (Tensor.convIn (.free "x"))
    ∧ ∃ out,
        upPathAux (.free "emb") (.free "enc") 0 (.free "smid")
          (downStack (modelSpec cfgValid) (.free "emb") (.free "enc")
            (Tensor.convIn (.free "x")))
          (modelSpec cfgValid).upBlocks.dropLast
        = .ok (out,
            (downStack (modelSpec cfgValid) (.free "emb") (.free "enc")
              (Tensor.convIn (.free "x"))).take
              ({ numLayers := 2, transformerLayers := 1, inChannels := 4,
                 outChannels := 4, prevOutputChannel := 8,
                 addUpsample := false, attnHeads := 2,
                 hasAttentions := true } : UpBlockDesc).numLayers)
        ∧ Tensor.convIn (.free "x")
            ∈ (downStack (modelSpec cfgValid) (.free "emb") (.free "enc")
                (Tensor.convIn (.free "x"))).take
                ({ numLayers := 2, transformerLayers := 1, inChannels := 4,
                   outChannels := 4, prevOutputChannel := 8,
                   addUpsample := false, attnHeads := 2,
                   hasAttentions := true } : UpBlockDesc).numLayers :=
  claim10_conv_in_skip cfgValid (modelSpec cfgValid) (by decide) rfl
    (.free "emb") (.free "enc") (.free "x") (.free "smid")
    { numLayers := 2, transformerLayers := 1, inChannels := 4,
      outChannels := 4, prevOutputChannel := 8, addUpsample := false,
      attnHeads := 2, hasAttentions := true } (by decide)

theorem buildDown_err_seq (hp : HParams) (attn tpb : List Nat)
    (tys : List String) :
    ∀ i c, i + tys.length ≤ hp.block_out_channels.length →
      (∀ s ∈ tys, knownDownType s) →
      i ≤ attn.length → i ≤ tpb.length →
      (attn.length < i + tys.length ∨ tpb.length < i + tys.length) →
      buildDownBlocks hp attn tpb i c tys = .error .indexError := by
  induction tys with
  | nil =>
    intro i c _ _ hia hit hor
    exfalso
    simp only [List.length_nil] at hor
    rcases hor with h | h <;> omega
  | cons ty rest ih =>
    intro i c hb hk hia hit hor
    have hbi : i < hp.block_out_channels.length := by
      simp only [List.length_cons] at hb; omega
    by_cases ht : i < tpb.length
    · by_cases ha : i < attn.length
      · have hrec := ih (i + 1) (hp.block_out_channels.getD i 0)
          (by simp only [List.length_cons] at hb; omega)
          (fun s hs => hk s (List.mem_cons_of_mem ty hs))
          (by omega) (by omega)
          (by simp only [List.length_cons] at hor
              rcases hor with h | h
              · exact Or.inl (by omega)
              · exact Or.inr (by omega))
        rcases hk ty (List.mem_cons_self ty rest) with h | h <;> subst h <;>
          simp only [buildDownBlocks, pyIdx_ofNat_ok _ _ 0 hbi,
            pyIdx_ofNat_ok _ _ 0 ht, pyIdx_ofNat_ok _ _ 0 ha, exceptBind_ok,
            downTypeHasAttn_cross, downTypeHasAttn_plain, hrec, exceptBind_err]
      · have hieq : attn.length ≤ i := by omega
        simp only [buildDownBlocks, pyIdx_ofNat_ok _ _ 0 hbi,
          pyIdx_ofNat_ok _ _ 0 ht, pyIdx_ofNat_err _ _ hieq, exceptBind_ok,
          exceptBind_err]
    · have hieq : tpb.length ≤ i := by omega
      simp only [buildDownBlocks, pyIdx_ofNat_ok _ _ 0 hbi,
        pyIdx_ofNat_err _ _ hieq, exceptBind_ok, exceptBind_err]

theorem buildUp_err_over (hp : HParams) (rboc rattn rtpb : List Nat)
    (tys : List String)
    (hrb : rboc.length = hp.block_out_channels.length)
    (ha : hp.block_out_channels.length ≤ rattn.length)
    (ht : hp.block_out_channels.length ≤ rtpb.length) :
    ∀ i c, (∀ s ∈ tys, knownUpType s) →
      i ≤ hp.block_out_channels.length →
      hp.block_out_channels.length < i + tys.length →
      buildUpBlocks hp rboc rattn rtpb i c tys = .error .indexError := by
  induction tys with
  | nil =>
    intro i c _ hle hlt
    exfalso
    simp only [List.length_nil] at hlt
    omega
  | cons ty rest ih =>
    intro i c hk hle hlt
    by_cases hib : i < hp.block_out_channels.length
    · have hbi : i < rboc.length := by omega
      have hmin : min (i + 1) (hp.block_out_channels.length - 1)
          < rboc.length := by omega
      have hti : i < rtpb.length := by omega
      have hai : i < rattn.length := by omega
      have hrec := ih (i + 1) (rboc.getD i 0)
        (fun s hs => hk s (List.mem_cons_of_mem ty hs))
        (by omega)
        (by simp only [List.length_cons] at hlt; omega)
      rcases hk ty (List.mem_cons_self ty rest) with h | h <;> subst h <;>
        simp only [buildUpBlocks, pyIdx_ofNat_ok _ _ 0 hbi,
          pyIdx_ofNat_ok _ _ 0 hmin, pyIdx_ofNat_ok _ _ 0 hti,
          pyIdx_ofNat_ok _ _ 0 hai, exceptBind_ok, exceptBind_err,
          upTypeHasAttn_cross, upTypeHasAttn_plain, hrec]
    · have hieq : rboc.length ≤ i := by omega
      simp only [buildUpBlocks, pyIdx_ofNat_err _ _ hieq, exceptBind_err]

theorem initModel_err_short_seq (hp : HParams)
    (hshort : (broadcastAttr hp.attention_head_dim
          hp.down_block_types.length).length < hp.down_block_types.length
      ∨ (broadcastAttr hp.transformer_layers_per_block
          hp.down_block_types.length).length < hp.down_block_types.length)
    (hdb : hp.down_block_types.length ≤ hp.block_out_channels.length)
    (hB : 1 ≤ hp.block_out_channels.length)
    (hkd : ∀ s ∈ hp.down_block_types, knownDownType s) :
    initModel hp = .error .indexError := by
  have hzero : pyIdx hp.block_out_channels 0
      = .ok (hp.block_out_channels.getD 0 0) :=
    pyIdx_ofNat_ok hp.block_out_channels 0 0 hB
  have herr := buildDown_err_seq hp
    (broadcastAttr hp.attention_head_dim hp.down_block_types.length)
    (broadcastAttr hp.transformer_layers_per_block hp.down_block_types.length)
    hp.down_block_types 0 (hp.block_out_channels.getD 0 0)
    (by omega) hkd (Nat.zero_le _) (Nat.zero_le _)
    (by simpa using hshort)
  simp only [initModel, hzero, exceptBind_ok, herr, exceptBind_err]

theorem initModel_err_long_up (hp : HParams)
    (hlong : hp.block_out_channels.length < hp.up_block_types.length)
    (hD : hp.down_block_types.length = hp.block_out_channels.length)
    (hB : 1 ≤ hp.block_out_channels.length)
    (hA : (broadcastAttr hp.attention_head_dim
        hp.down_block_types.length).length = hp.down_block_types.length)
    (hT : (broadcastAttr hp.transformer_layers_per_block
        hp.down_block_types.length).length = hp.down_block_types.length)
    (hkd : ∀ s ∈ hp.down_block_types, knownDownType s)
    (hku : ∀ s ∈ hp.up_block_types, knownUpType s) :
    initModel hp = .error .indexError := by
  have hzero : pyIdx hp.block_out_channels 0
      = .ok (hp.block_out_channels.getD 0 0) :=
    pyIdx_ofNat_ok hp.block_out_channels 0 0 hB
  have hdown := buildDown_ok hp
    (broadcastAttr hp.attention_head_dim hp.down_block_types.length)
    (broadcastAttr hp.transformer_layers_per_block hp.down_block_types.length)
    hp.down_block_types 0 (hp.block_out_channels.getD 0 0) rfl
    (by omega) (by omega) (by omega) hkd
  have hmidIn := pyIdx_neg_one_ok hp.block_out_channels 0 hB
  have hmidT := pyIdx_neg_one_ok
    (broadcastAttr hp.transformer_layers_per_block hp.down_block_types.length)
    0 (by omega)
  have hmidA := pyIdx_neg_one_ok
    (broadcastAttr hp.attention_head_dim hp.down_block_types.length)
    0 (by omega)
  have hrb0 : pyIdx hp.block_out_channels.reverse 0
      = .ok (hp.block_out_channels.reverse.getD 0 0) :=
    pyIdx_ofNat_ok hp.block_out_channels.reverse 0 0
      (by rw [List.length_reverse]; omega)
  have herr := buildUp_err_over hp hp.block_out_channels.reverse
    (broadcastAttr hp.attention_head_dim hp.down_block_types.length).reverse
    (broadcastAttr hp.transformer_layers_per_block
      hp.down_block_types.length).reverse
    hp.up_block_types (List.length_reverse _)
    (by rw [List.length_reverse]; omega)
    (by rw [List.length_reverse]; omega)
    0 (hp.block_out_channels.reverse.getD 0 0) hku (Nat.zero_le _)
    (by omega)
  simp only [initModel, hzero, exceptBind_ok, hdown, hmidIn, hmidT, hmidA,
    hrb0, herr, exceptBind_err]

/-- C2 (counterexample): two configs whose lengths disagree in the way the
claim says must fail at construction, yet which construct without error:
`cfgShortUp` has one up-stage against two down-stages, and `cfgLongAttn` has
a three-entry attention-head sequence against two down-stages. -/
theorem claim2_counterexample :
    (∃ mm, initModel cfgShortUp = .ok mm)
    ∧ (∃ mm, initModel cfgLongAttn = .ok mm) :=
  ⟨⟨_, rfl⟩, ⟨_, rfl⟩⟩

/-- C2 (amended): any config with a nonempty channel list covering the
down- and up-stage counts, per-stage sequences (after scalar broadcast) at
least as long as the stage counts, and known block tags constructs without
error — in particular a well-formed config, an over-long per-stage sequence,
and fewer up-stages than down-stages all construct; a (broadcast) per-stage
sequence — attention head count or transformer layer depth — SHORTER than the
down-stage count fails construction with an index error (Python `IndexError`,
not a dedicated ConfigurationError), as does an `up_block_types` list LONGER
than `block_out_channels`. -/
theorem claim2_amended :
    (∀ hp : HParams,
        1 ≤ hp.block_out_channels.length →
        hp.down_block_types.length ≤ hp.block_out_channels.length →
        hp.up_block_types.length ≤ hp.block_out_channels.length →
        hp.down_block_types.length ≤ (broadcastAttr hp.attention_head_dim
          hp.down_block_types.length).length →
        hp.up_block_types.length ≤ (broadcastAttr hp.attention_head_dim
          hp.down_block_types.length).length →
        1 ≤ (broadcastAttr hp.attention_head_dim
          hp.down_block_types.length).length →
        hp.down_block_types.length
          ≤ (broadcastAttr hp.transformer_layers_per_block
            hp.down_block_types.length).length →
        hp.up_block_types.length
          ≤ (broadcastAttr hp.transformer_layers_per_block
            hp.down_block_types.length).length →
        1 ≤ (broadcastAttr hp.transformer_layers_per_block
          hp.down_block_types.length).length →
        (∀ s ∈ hp.down_block_types, knownDownType s) →
        (∀ s ∈ hp.up_block_types, knownUpType s) →
        ∃ mm, initModel hp = .ok mm)
    ∧ (∀ hp : HParams,
        ((broadcastAttr hp.attention_head_dim
            hp.down_block_types.length).length < hp.down_block_types.length
          ∨ (broadcastAttr hp.transformer_layers_per_block
              hp.down_block_types.length).length
            < hp.down_block_types.length) →
        hp.down_block_types.length ≤ hp.block_out_channels.length →
        1 ≤ hp.block_out_channels.length →
        (∀ s ∈ hp.down_block_types, knownDownType s) →
        initModel hp = .error .indexError)
    ∧ (∀ hp : HParams,
        hp.block_out_channels.length < hp.up_block_types.length →
        hp.down_block_types.length = hp.block_out_channels.length →
        1 ≤ hp.block_out_channels.length →
        (broadcastAttr hp.attention_head_dim
          hp.down_block_types.length).length = hp.down_block_types.length →
        (broadcastAttr hp.transformer_layers_per_block
          hp.down_block_types.length).length = hp.down_block_types.length →
        (∀ s ∈ hp.down_block_types, knownDownType s) →
        (∀ s ∈ hp.up_block_types, knownUpType s) →
        initModel hp = .error .indexError) :=
  ⟨fun hp h1 h2 h3 h4 h5 h6 h7 h8 h9 h10 h11 =>
     ⟨modelSpec hp, initModel_ok_of_le hp h1 h2 h3 h4 h5 h6 h7 h8 h9 h10 h11⟩,
   fun hp h1 h2 h3 h4 => initModel_err_short_seq hp h1 h2 h3 h4,
   fun hp h1 h2 h3 h4 h5 h6 h7 =>
     initModel_err_long_up hp h1 h2 h3 h4 h5 h6 h7⟩

theorem claim2_witness :
    (∃ mm, initModel cfgLongAttn = .ok mm)
    ∧ (∃ mm, initModel cfgShortUp = .ok mm)
    ∧ initModel cfgShortAttn = .error .indexError
    ∧ initModel cfgShortTpb = .error .indexError
    ∧ initModel cfgLongUp = .error .indexError :=
  ⟨claim2_amended.1 cfgLongAttn (by decide) (by decide) (by decide)
     (by decide) (by decide) (by decide) (by decide) (by decide) (by decide)
     (by decide) (by decide),
   claim2_amended.1 cfgShortUp (by decide) (by decide) (by decide)
     (by decide) (by decide) (by decide) (by decide) (by decide) (by decide)
     (by decide) (by decide),
   claim2_amended.2.1 cfgShortAttn (Or.inl (by decide)) (by decide)
     (by decide) (by decide),
   claim2_amended.2.1 cfgShortTpb (Or.inr (by decide)) (by decide)
     (by decide) (by decide),
   claim2_amended.2.2 cfgLongUp (by decide) (by decide) (by decide)
     (by decide) (by decide) (by decide) (by decide)⟩
